import Mathlib

/-!
Shallow embedding of the 2D articulated-figure rig from this repository:
the skeleton data model and the global pose resolver (kinematics.ts), and
the two-bone IK solver, lock manager, pose blender and Verlet constraint
relaxation of the interactive controller (app.component.ts). In-place
mutation of the bone tree is modelled by returning the updated tree;
JSON-style deep clones are identities under value semantics.
-/

noncomputable section

namespace IKRig

/-- A 2D point, as the plain x/y records used throughout the source. -/
structure Vec2 where
  x : ℝ
  y : ℝ

/-- The globalPos record of a bone: world start and end points of the
segment. The source field named end is called stop here because end is a
reserved word in Lean. -/
structure Pose where
  start : Vec2
  stop : Vec2

/-- A bone of the skeletal tree (interface Bone in kinematics.ts). The
derived fields globalAngle and globalPos are optional exactly as in the
source, where they are absent until computeGlobalPositions writes them in
place. zIndex and targetAngle are omitted: no kinematics code reads them. -/
inductive Bone where
  | node (name : String) (length angle mass : ℝ) (visible : Option Bool)
      (globalAngle : Option ℝ) (globalPos : Option Pose)
      (children : List Bone)

def Bone.name : Bone → String
  | .node n _ _ _ _ _ _ _ => n

def Bone.length : Bone → ℝ
  | .node _ len _ _ _ _ _ _ => len

def Bone.angle : Bone → ℝ
  | .node _ _ ang _ _ _ _ _ => ang

def Bone.mass : Bone → ℝ
  | .node _ _ _ m _ _ _ _ => m

def Bone.visible : Bone → Option Bool
  | .node _ _ _ _ vis _ _ _ => vis

def Bone.globalAngle : Bone → Option ℝ
  | .node _ _ _ _ _ ga _ _ => ga

def Bone.globalPos : Bone → Option Pose
  | .node _ _ _ _ _ _ gp _ => gp

def Bone.children : Bone → List Bone
  | .node _ _ _ _ _ _ _ cs => cs

mutual

/-- Resolver computeGlobalPositions from kinematics.ts: writes globalAngle
and globalPos on every bone of the tree, recursing into the children with
the end point and cumulative world angle of this bone. -/
def computeGlobalPositions : Bone → ℝ → ℝ → ℝ → Bone
  | .node n len ang m vis _ _ cs, parentX, parentY, parentAngle =>
    let globalAngle := parentAngle + ang
    let endX := parentX + Real.cos globalAngle * len
    let endY := parentY + Real.sin globalAngle * len
    .node n len ang m vis (some globalAngle)
      (some ⟨⟨parentX, parentY⟩, ⟨endX, endY⟩⟩)
      (computeGlobalPositionsList cs endX endY globalAngle)

def computeGlobalPositionsList : List Bone → ℝ → ℝ → ℝ → List Bone
  | [], _, _, _ => []
  | c :: cs, ex, ey, ga =>
    computeGlobalPositions c ex ey ga :: computeGlobalPositionsList cs ex ey ga

end

mutual

/-- findBone from app.component.ts: depth-first search, the bone itself
first, then its children in order. -/
def findBone : Bone → String → Option Bone
  | .node n len ang m vis ga gp cs, target =>
    if n = target then some (.node n len ang m vis ga gp cs)
    else findBoneList cs target

def findBoneList : List Bone → String → Option Bone
  | [], _ => none
  | c :: cs, target =>
    match findBone c target with
    | some r => some r
    | none => findBoneList cs target

end

mutual

/-- findParentBone from app.component.ts: for each child of a node in
order, if the child carries the name then this node is the parent,
otherwise search inside that child before moving to the next one. -/
def findParentBone : Bone → String → Option Bone
  | .node n len ang m vis ga gp cs, childName =>
    findParentInChildren (.node n len ang m vis ga gp cs) cs childName

def findParentInChildren : Bone → List Bone → String → Option Bone
  | _, [], _ => none
  | par, c :: cs, childName =>
    if c.name = childName then some par
    else
      match findParentBone c childName with
      | some r => some r
      | none => findParentInChildren par cs childName

end

mutual

/-- Membership test for a name in a tree; used to locate the single bone
object whose field is rewritten when modelling an in-place mutation. -/
def containsBone : Bone → String → Bool
  | .node n _ _ _ _ _ _ cs, target => n = target || containsBoneList cs target

def containsBoneList : List Bone → String → Bool
  | [], _ => false
  | c :: cs, target => containsBone c target || containsBoneList cs target

end

mutual

/-- Models an in-place write to the angle of the bone object returned by
findBone: the first depth-first occurrence of the name has its angle
mapped through f, every other bone is untouched. -/
def modifyAngleFirst : Bone → String → (ℝ → ℝ) → Bone
  | .node n len ang m vis ga gp cs, target, f =>
    if n = target then .node n len (f ang) m vis ga gp cs
    else .node n len ang m vis ga gp (modifyAngleFirstList cs target f)

def modifyAngleFirstList : List Bone → String → (ℝ → ℝ) → List Bone
  | [], _, _ => []
  | c :: cs, target, f =>
    if containsBone c target then modifyAngleFirst c target f :: cs
    else c :: modifyAngleFirstList cs target f

end

/-- An assignment bone.angle = v to the first depth-first bone named
target, as performed on the result of findBone. -/
def setAngleFirst (b : Bone) (target : String) (v : ℝ) : Bone :=
  modifyAngleFirst b target (fun _ => v)

/-- An update bone.angle += d to the first depth-first bone named
target. -/
def addAngleFirst (b : Bone) (target : String) (d : ℝ) : Bone :=
  modifyAngleFirst b target (fun a => a + d)

/-- Math.atan2 of the host platform, written out by its standard real
definition (angle of the point (x, y), in (-pi, pi]). -/
def atan2 (y x : ℝ) : ℝ :=
  if 0 < x then Real.arctan (y / x)
  else if x < 0 ∧ 0 ≤ y then Real.arctan (y / x) + Real.pi
  else if x < 0 ∧ y < 0 then Real.arctan (y / x) - Real.pi
  else if x = 0 ∧ 0 < y then Real.pi / 2
  else if x = 0 ∧ y < 0 then -(Real.pi / 2)
  else 0

/-- Math.max(-1, Math.min(1, r)) as used to guard both acos arguments in
solveTwoBoneIK. -/
def clamp1 (r : ℝ) : ℝ := max (-1) (min 1 r)

/-- The literal getIKChainNames table of app.component.ts, mapping an end
effector to its proximal and distal chain bones. -/
def getIKChainNames (name : String) : Option (String × String) :=
  if name = "R_Foot" then some ("R_Hip", "R_Calf")
  else if name = "L_Foot" then some ("L_Hip", "L_Calf")
  else if name = "R_Hand" then some ("R_Shoulder", "R_Forearm")
  else if name = "L_Hand" then some ("L_Shoulder", "L_Forearm")
  else none

/-- The fixed whitelist lockableBones of app.component.ts. -/
def lockableBones : List String := ["L_Foot", "R_Foot", "L_Hand", "R_Hand"]

/-- The per-limb bend direction constant of solveTwoBoneIK: -1 for the
end effectors L_Foot and L_Hand, +1 for every other name. -/
def ikBendDirection (endEffectorName : String) : ℝ :=
  if endEffectorName = "L_Foot" ∨ endEffectorName = "L_Hand" then -1 else 1

/-- solveTwoBoneIK of app.component.ts. The source mutates bone1.angle and
bone2.angle in place on the passed skeleton instance after re-resolving
the whole tree from the stored globalPos.start of the root with parent angle 0;
here the function returns that re-resolved tree with the two angle writes
applied. Branches returning the input unchanged correspond to the
non-null assertions of the source, which never fire on its call sites. -/
def solveTwoBoneIK (root : Bone) (endEffectorName : String) (targetPos : Vec2) :
    Bone :=
  match getIKChainNames endEffectorName with
  | none => root
  | some (n1, n2) =>
    match root.globalPos with
    | none => root
    | some rootGP =>
      let r := computeGlobalPositions root rootGP.start.x rootGP.start.y 0
      match findBone r n1, findBone r n2, findParentBone r n1 with
      | some bone1, some bone2, some parentOfBone1 =>
        match parentOfBone1.globalPos with
        | none => r
        | some parGP =>
          let l1 := bone1.length
          let l2 := bone2.length
          let dx := targetPos.x - parGP.stop.x
          let dy := targetPos.y - parGP.stop.y
          let dist := Real.sqrt (dx * dx + dy * dy)
          let parentWorldAngle := (parentOfBone1.globalAngle).getD 0
          if dist > l1 + l2 then
            let angleToTarget := atan2 dy dx
            setAngleFirst (setAngleFirst r n1 (angleToTarget - parentWorldAngle)) n2 0
          else
            let distSq := dist * dist
            let angle1 := Real.arccos (clamp1 ((distSq + l1 * l1 - l2 * l2) / (2 * dist * l1)))
            let angle2 := Real.arccos (clamp1 ((l1 * l1 + l2 * l2 - distSq) / (2 * l1 * l2)))
            let bendDirection := ikBendDirection endEffectorName
            let angleToTarget := atan2 dy dx
            let bone1GlobalAngle := angleToTarget + bendDirection * angle1
            setAngleFirst (setAngleFirst r n1 (bone1GlobalAngle - parentWorldAngle)) n2
              (bendDirection * (angle2 - Real.pi))
      | _, _, _ => r

/-- Lookup in an insertion-ordered string-keyed map, modelling the Map
objects of the source (lockedBones, ikTargets). -/
def mapGet (m : List (String × Vec2)) (k : String) : Option Vec2 :=
  match m with
  | [] => none
  | e :: es => if e.1 = k then some e.2 else mapGet es k

/-- Map.has of the source maps. -/
def mapHas (m : List (String × Vec2)) (k : String) : Bool :=
  match m with
  | [] => false
  | e :: es => e.1 = k || mapHas es k

/-- Map.delete of the source maps: removes every entry with the key (keys
are unique in practice). -/
def mapDelete (m : List (String × Vec2)) (k : String) : List (String × Vec2) :=
  m.filter (fun e => ¬ e.1 = k)

/-- Map.set of the source maps: replaces the value in place when the key
is present, otherwise appends the new entry at the end. -/
def mapSet (m : List (String × Vec2)) (k : String) (v : Vec2) :
    List (String × Vec2) :=
  if mapHas m k then m.map (fun e => if e.1 = k then (k, v) else e)
  else m ++ [(k, v)]

/-- solveAllIK of app.component.ts: solves the locked effectors in the
fixed order left foot, right foot, left hand, right hand, each solve
acting on the tree produced by the previous one. -/
def solveAllIK (root : Bone) (targets : List (String × Vec2)) : Bone :=
  if targets.isEmpty then root
  else
    let r1 := match mapGet targets "L_Foot" with
      | some p => solveTwoBoneIK root "L_Foot" p
      | none => root
    let r2 := match mapGet targets "R_Foot" with
      | some p => solveTwoBoneIK r1 "R_Foot" p
      | none => r1
    let r3 := match mapGet targets "L_Hand" with
      | some p => solveTwoBoneIK r2 "L_Hand" p
      | none => r2
    match mapGet targets "R_Hand" with
      | some p => solveTwoBoneIK r3 "R_Hand" p
      | none => r3

/-- The core proportional unit ANATOMICAL_SCALE of kinematics.ts. -/
def ANATOMICAL_SCALE : ℝ := 50

/-- Shorthand for a raw skeleton node of the static tree literal: no
visible flag, no derived fields, exactly as the source object literals. -/
def rawBone (name : String) (length angle mass : ℝ) (children : List Bone) : Bone :=
  .node name length angle mass none none none children

/-- The SKELETON_TREE literal of kinematics.ts. -/
def SKELETON_TREE : Bone :=
  rawBone "Navel" 0 0 10
    [ rawBone "Torso_Base_Joint" 0 (-(Real.pi / 2)) 0
        [ rawBone "Torso" (ANATOMICAL_SCALE * 1.5) 0 20
            [ rawBone "Neck" (ANATOMICAL_SCALE * 0.5) 0 2
                [ rawBone "Head" (ANATOMICAL_SCALE * 1.0) 0 5 [] ],
              rawBone "L_Clavicle" (ANATOMICAL_SCALE * 0.75) (-(Real.pi / 2)) 0
                [ rawBone "L_Shoulder" (ANATOMICAL_SCALE * 1.5) 0 6
                    [ rawBone "L_Forearm" (ANATOMICAL_SCALE * 1.25) 0 5
                        [ rawBone "L_Hand" (ANATOMICAL_SCALE * 1.0) 0 2 [] ] ] ],
              rawBone "R_Clavicle" (ANATOMICAL_SCALE * 0.75) (Real.pi / 2) 0
                [ rawBone "R_Shoulder" (ANATOMICAL_SCALE * 1.5) 0 6
                    [ rawBone "R_Forearm" (ANATOMICAL_SCALE * 1.25) 0 5
                        [ rawBone "R_Hand" (ANATOMICAL_SCALE * 1.0) 0 2 [] ] ] ] ] ],
      rawBone "Pelvis_Base_Joint" 0 (Real.pi / 2) 0
        [ rawBone "Pelvis" (ANATOMICAL_SCALE * 1.0) 0 15
            [ rawBone "L_Hip_Joint" (ANATOMICAL_SCALE * 0.5) (Real.pi / 2) 0
                [ rawBone "L_Hip_Base_Joint" 0 (-(Real.pi / 2)) 0
                    [ rawBone "L_Hip" (ANATOMICAL_SCALE * 1.75) 0 10
                        [ rawBone "L_Calf" (ANATOMICAL_SCALE * 1.75) 0 8
                            [ rawBone "L_Ankle_Joint" 0 (Real.pi / 2) 0
                                [ rawBone "L_Foot" (ANATOMICAL_SCALE * 1.0) 0 3 [] ] ] ] ] ],
              rawBone "R_Hip_Joint" (ANATOMICAL_SCALE * 0.5) (-(Real.pi / 2)) 0
                [ rawBone "R_Hip_Base_Joint" 0 (Real.pi / 2) 0
                    [ rawBone "R_Hip" (ANATOMICAL_SCALE * 1.75) 0 10
                        [ rawBone "R_Calf" (ANATOMICAL_SCALE * 1.75) 0 8
                            [ rawBone "R_Ankle_Joint" 0 (-(Real.pi / 2)) 0
                                [ rawBone "R_Foot" (ANATOMICAL_SCALE * 1.0) 0 3 [] ] ] ] ] ] ] ] ]

/-- Length of a named bone of a tree, defaulting to 0; the names used
through this accessor always exist in the tree. -/
def boneLengthIn (t : Bone) (n : String) : ℝ :=
  match findBone t n with
  | some b => b.length
  | none => 0

/-- Local angle of a named bone of a tree, defaulting to 0 exactly like
the getBoneAngle accessor of the source. -/
def boneAngleIn (t : Bone) (n : String) : ℝ :=
  match findBone t n with
  | some b => b.angle
  | none => 0

/-- getLegLength of app.component.ts: pelvis plus left hip plus left calf
lengths of the static tree. -/
def getLegLength : ℝ :=
  boneLengthIn SKELETON_TREE "Pelvis" + boneLengthIn SKELETON_TREE "L_Hip" +
    boneLengthIn SKELETON_TREE "L_Calf"

mutual

/-- createVisibleSkeleton of app.component.ts: copies the tree setting
every visible flag to true. -/
def createVisibleSkeleton : Bone → Bone
  | .node n len ang m _ ga gp cs =>
    .node n len ang m (some true) ga gp (createVisibleSkeletonList cs)

def createVisibleSkeletonList : List Bone → List Bone
  | [] => []
  | c :: cs => createVisibleSkeleton c :: createVisibleSkeletonList cs

end

/-- The initialSkeleton member: the static tree with all bones visible. -/
def initialSkeleton : Bone := createVisibleSkeleton SKELETON_TREE

/-- The leg spread angle of createTensionPose. -/
def tensionLegAngle : ℝ :=
  Real.arctan ((ANATOMICAL_SCALE * 0.5) / (ANATOMICAL_SCALE * 1.75 + ANATOMICAL_SCALE * 1.75))

/-- createTensionPose of app.component.ts: a clone of the initial
skeleton with arms straight up, legs angled inward and feet counter
rotated flat. -/
def tensionPoseSkeleton : Bone :=
  setAngleFirst (setAngleFirst (setAngleFirst (setAngleFirst
    (setAngleFirst (setAngleFirst (setAngleFirst (setAngleFirst
      (setAngleFirst (setAngleFirst initialSkeleton
        "L_Shoulder" (Real.pi / 2))
        "R_Shoulder" (-(Real.pi / 2)))
        "L_Forearm" 0)
        "R_Forearm" 0)
        "L_Hip" tensionLegAngle)
        "R_Hip" (-tensionLegAngle))
        "L_Calf" 0)
        "R_Calf" 0)
        "L_Foot" (-tensionLegAngle))
        "R_Foot" tensionLegAngle

/-- The three motion modes of the controller. -/
inductive MotionMode where
  | tPose
  | tension
  | collapse
deriving DecidableEq

/-- The AnimationState record of app.component.ts. The skeleton and mode
fields are nullable in the source and only ever read through non-null
assertions while a transition is active; startAnimation always populates
them. -/
structure AnimationState where
  active : Bool
  startSkeleton : Option Bone
  targetSkeleton : Option Bone
  startOffsets : Vec2
  targetOffsets : Vec2
  durationFrames : Nat
  currentFrame : Nat
  targetMode : Option MotionMode

/-- The mutable controller state the claims range over: the live skeleton
signal, the ground offsets, the motion mode, the blend state, the lock
map, the locked-chain cache and the two UI selection fields read by the
keyboard handler. -/
structure SimState where
  skeleton : Bone
  navelOffsetX : ℝ
  navelOffsetY : ℝ
  motionMode : MotionMode
  animationState : AnimationState
  lockedBones : List (String × Vec2)
  lockedChainCache : List String
  activeControl : Option String
  lastAdjustedGroup : Option String

/-- The linear interpolation helper of updateTransitionAnimation. -/
def lerp (a b amt : ℝ) : ℝ := (1 - amt) * a + amt * b

mutual

/-- lerpSkeleton of updateTransitionAnimation: walks the three trees in
lockstep setting every current angle to the interpolation of the start
and target angles. Start and target are structurally identical to the
current tree on every call site; on a shape mismatch the source would
fault, here the remaining bones are left unchanged. -/
def lerpSkeleton (progress : ℝ) : Bone → Bone → Bone → Bone
  | .node n len _ m vis ga gp cs, s, t =>
    .node n len (lerp s.angle t.angle progress) m vis ga gp
      (lerpSkeletonList progress cs s.children t.children)

def lerpSkeletonList (progress : ℝ) : List Bone → List Bone → List Bone → List Bone
  | [], _, _ => []
  | c :: cs, s :: ss, t :: ts =>
    lerpSkeleton progress c s t :: lerpSkeletonList progress cs ss ts
  | c :: cs, _, _ => c :: cs

end

/-- updateTransitionAnimation of app.component.ts: one blend tick.
Advances the frame counter, lerps every bone angle and both ground
offsets at progress newFrame / durationFrames, and on newFrame reaching
durationFrames snaps the skeleton to a copy of the target, commits the
target mode and clears the active flag (keeping the old frame counter,
as the source object spread does). -/
def updateTransitionAnimation (s : SimState) : SimState :=
  let st := s.animationState
  if st.active = false then s
  else
    match st.startSkeleton, st.targetSkeleton, st.targetMode with
    | some startSk, some targetSk, some tMode =>
      let newFrame := st.currentFrame + 1
      let progress : ℝ := (newFrame : ℝ) / (st.durationFrames : ℝ)
      let lerped := lerpSkeleton progress s.skeleton startSk targetSk
      let ox := lerp st.startOffsets.x st.targetOffsets.x progress
      let oy := lerp st.startOffsets.y st.targetOffsets.y progress
      if st.durationFrames ≤ newFrame then
        { s with skeleton := targetSk, navelOffsetX := ox, navelOffsetY := oy,
                 motionMode := tMode,
                 animationState := { st with active := false } }
      else
        { s with skeleton := lerped, navelOffsetX := ox, navelOffsetY := oy,
                 animationState := { st with currentFrame := newFrame } }
    | _, _, _ => s

/-- n successive blend ticks. -/
def tickN : Nat → SimState → SimState
  | 0, s => s
  | n + 1, s => tickN n (updateTransitionAnimation s)

/-- The names registered in boneMetadata by the constructor. -/
def controllableBoneNames : List String :=
  ["Navel", "Torso", "Neck", "L_Shoulder", "R_Shoulder", "L_Forearm", "R_Forearm",
   "L_Hand", "R_Hand", "L_Hip", "R_Hip", "L_Calf", "R_Calf", "L_Foot", "R_Foot"]

/-- The boneMetadata map of the constructor: slider bounds and step per
control name. -/
def boneMetadata (name : String) : Option (ℝ × ℝ × ℝ) :=
  if name ∈ controllableBoneNames then some (-Real.pi, Real.pi, 0.01)
  else if name = "Ground X" ∨ name = "Ground Y" then some (-200, 200, 1)
  else if name = "Global Rotation" then some (-Real.pi, Real.pi, 0.01)
  else none

/-- One entry of the controlGroups literal. -/
structure ControlGroup where
  title : String
  bones : List String

/-- The controlGroups literal of app.component.ts. -/
def controlGroups : List ControlGroup :=
  [⟨"Core", ["Navel", "Torso", "Neck"]⟩,
   ⟨"Left Arm", ["L_Shoulder", "L_Forearm", "L_Hand"]⟩,
   ⟨"Right Arm", ["R_Shoulder", "R_Forearm", "R_Hand"]⟩,
   ⟨"Left Leg", ["L_Hip", "L_Calf", "L_Foot"]⟩,
   ⟨"Right Leg", ["R_Hip", "R_Calf", "R_Foot"]⟩]

/-- setBoneAngle of app.component.ts, with the event already parsed: the
angle in radians and whether the event came from a slider (unit
conversion is input parsing and happens before this point). The skeleton
update is unconditional; only slider input is clamped to the metadata
bounds. Afterwards lastAdjustedGroup is set to the control group of the
name, or to the name itself when the name is a locked effector. -/
def setBoneAngle (s : SimState) (name : String) (angleInRad : ℝ)
    (isSlider : Bool) : SimState :=
  let newSkeleton :=
    match findBone s.skeleton name with
    | some _ =>
      match boneMetadata name with
      | some (mn, mx, _) =>
        if isSlider then setAngleFirst s.skeleton name (max mn (min mx angleInRad))
        else setAngleFirst s.skeleton name angleInRad
      | none => setAngleFirst s.skeleton name angleInRad
    | none => s.skeleton
  let s1 := { s with skeleton := newSkeleton }
  match controlGroups.find? (fun g => g.bones.contains name) with
  | some g => { s1 with lastAdjustedGroup := some g.title }
  | none =>
    if mapHas s.lockedBones name then { s1 with lastAdjustedGroup := some name }
    else s1

mutual

/-- Number of bones of a tree; bounds the length of any parent walk. -/
def boneCount : Bone → Nat
  | .node _ _ _ _ _ _ _ cs => 1 + boneCountList cs

def boneCountList : List Bone → Nat
  | [] => 0
  | c :: cs => boneCount c + boneCountList cs

end

/-- The while loop of buildLockedChainCache: walk parent pointers from a
bone up to (excluding) the Navel root, collecting the visited names. The
fuel, instantiated with the bone count of the tree, bounds the walk,
which in the source strictly ascends the tree and therefore visits each
bone at most once. -/
def chainPathAux (root : Bone) : Nat → Option Bone → List String
  | 0, _ => []
  | _, none => []
  | fuel + 1, some b =>
    if b.name = "Navel" then []
    else b.name :: chainPathAux root fuel (findParentBone root b.name)

/-- buildLockedChainCache of app.component.ts: for every locked effector
name, walk from that bone up to (excluding) the root and collect every
visited name into the cache. -/
def buildLockedChainCache (root : Bone) (locks : List (String × Vec2)) :
    List String :=
  (locks.map (fun e => chainPathAux root (boneCount root) (findBone root e.1))).flatten

/-- isBoneInLockedChain of app.component.ts: when checkEndEffector is
false a locked effector itself is reported unconstrained; otherwise
membership in the cache decides. -/
def isBoneInLockedChain (s : SimState) (boneName : String)
    (checkEndEffector : Bool) : Bool :=
  if !checkEndEffector && mapHas s.lockedBones boneName then false
  else s.lockedChainCache.contains boneName

/-- The keyboard keys the handler distinguishes. -/
inductive Key where
  | backquote
  | arrowUp
  | arrowDown
  | other
deriving DecidableEq

/-- resetGroup of app.component.ts: remove the group bones from the lock
map and revert the group bones carrying metadata to the reference pose of
the current mode. -/
def resetGroup (s : SimState) (groupName : String) : SimState :=
  match controlGroups.find? (fun g => g.title == groupName) with
  | none => s
  | some g =>
    let newLocks := g.bones.foldl (fun m b => mapDelete m b) s.lockedBones
    let bonesToReset := g.bones.filter (fun b => (boneMetadata b).isSome)
    let targetPose := if s.motionMode = MotionMode.tension then tensionPoseSkeleton
      else initialSkeleton
    let newSkel := bonesToReset.foldl (fun sk b =>
      match findBone sk b, findBone targetPose b with
      | some _, some tb => setAngleFirst sk b tb.angle
      | _, _ => sk) s.skeleton
    { s with lockedBones := newLocks, skeleton := newSkel }

/-- handleKeyDown of app.component.ts. Backquote resets the last adjusted
group; any other key is dropped while mode is Collapse or a transition is
active; arrow keys only act when a control is active and not in the
locked chain (the effector itself excluded), nudging the control by its
metadata step. -/
def handleKeyDown (s : SimState) (key : Key) : SimState :=
  if key = Key.backquote then
    match s.lastAdjustedGroup with
    | some g => resetGroup s g
    | none => s
  else if s.motionMode = MotionMode.collapse ∨ s.animationState.active = true then s
  else
    match s.activeControl with
    | none => s
    | some activeCtrl =>
      if isBoneInLockedChain s activeCtrl false then s
      else if key = Key.arrowUp ∨ key = Key.arrowDown then
        let step := match boneMetadata activeCtrl with
          | some (_, _, st) => st
          | none => 1
        let isAnchor := activeCtrl = "Ground X" ∨ activeCtrl = "Ground Y" ∨
          activeCtrl = "Global Rotation"
        let delta := (if key = Key.arrowUp then step else -step) *
          (if isAnchor then 1 else 0.01)
        if isAnchor then
          if activeCtrl = "Ground X" then { s with navelOffsetX := s.navelOffsetX + delta }
          else if activeCtrl = "Ground Y" then { s with navelOffsetY := s.navelOffsetY + delta }
          else { s with skeleton := addAngleFirst s.skeleton "Navel" delta }
        else { s with skeleton := addAngleFirst s.skeleton activeCtrl delta }
      else s

/-- toggleLock of app.component.ts, with the host viewport rectangle
passed in. Non-lockable names are dropped; a locked name is unlocked;
otherwise the skeleton is freshly resolved from the navel anchor and the
world end point of the immediate parent of the effector is captured as
the pin target. -/
def toggleLock (s : SimState) (rectW rectH : ℝ) (boneName : String) : SimState :=
  if ¬ lockableBones.contains boneName then s
  else if mapHas s.lockedBones boneName then
    { s with lockedBones := mapDelete s.lockedBones boneName }
  else
    let floorY := rectH * 0.85
    let navelX := rectW / 2 + s.navelOffsetX
    let navelY := floorY - getLegLength - s.navelOffsetY
    let tempSkel := computeGlobalPositions s.skeleton navelX navelY 0
    match findParentBone tempSkel boneName with
    | some parentBone =>
      match parentBone.globalPos with
      | some pgp => { s with lockedBones := mapSet s.lockedBones boneName pgp.stop }
      | none => s
    | none => s

/-- String.prototype.endsWith of the host platform: the suffix test,
stated on the character lists. -/
def stringEndsWith (s post : String) : Bool := post.data.isSuffixOf s.data

/-- The root globalPos assignment of drawInteractiveModel (both start and
end set to the navel anchor) performed right before IK solving. -/
def setRootGlobalPos (b : Bone) (p : Vec2) : Bone :=
  match b with
  | .node n len ang m vis ga _ cs => .node n len ang m vis ga (some ⟨p, p⟩) cs

/-- The kinematic state effect of drawInteractiveModel of
app.component.ts, with the host viewport rectangle passed in; the
returned bone tree is the fully resolved frame skeleton handed to the
canvas drawing calls. The source builds ikTargets as new Map(lockedBones)
which is a shallow copy sharing each entry value object with lockedBones,
so the per-frame foot clamp target.position.y = floorY writes through
into the stored lock entries; the embedding reflects that aliasing by
installing the clamped map as the new lockedBones. The locked chain cache
is rebuilt from the frame skeleton before drawing. -/
def drawInteractiveModel (s : SimState) (rectW rectH : ℝ) : SimState × Bone :=
  let floorY := rectH * 0.85
  let navelX := rectW / 2 + s.navelOffsetX
  let initialNavelY := (floorY - getLegLength) - s.navelOffsetY
  let frameSkeleton := s.skeleton
  let cache := buildLockedChainCache frameSkeleton s.lockedBones
  let ikTargets := s.lockedBones.map (fun e =>
    if stringEndsWith e.1 "Foot" then (e.1, Vec2.mk e.2.x floorY) else e)
  let fs1 := setRootGlobalPos frameSkeleton ⟨navelX, initialNavelY⟩
  let fs2 := if ikTargets.isEmpty then fs1 else solveAllIK fs1 ikTargets
  let resolved := computeGlobalPositions fs2 navelX initialNavelY 0
  ({ s with lockedBones := ikTargets, lockedChainCache := cache }, resolved)

/-- A Verlet particle (interface PhysicsPoint of app.component.ts). -/
structure PhysicsPoint where
  x : ℝ
  y : ℝ
  oldX : ℝ
  oldY : ℝ
  isPinned : Bool

/-- A rigid stick constraint (interface PhysicsStick). The source stores
object references to its two endpoints; the embedding stores indices into
the particle list, so shared joints are shared indices. -/
structure PhysicsStick where
  i0 : Nat
  i1 : Nat
  length : ℝ

/-- One stick relaxation of the inner loop of updateCollapse: skip a
zero-length configuration, otherwise move each unpinned endpoint by half
the correction along the current offset. -/
def relaxStick (pts : List PhysicsPoint) (s : PhysicsStick) : List PhysicsPoint :=
  match pts.get? s.i0, pts.get? s.i1 with
  | some p0, some p1 =>
    let dx := p1.x - p0.x
    let dy := p1.y - p0.y
    let dist := Real.sqrt (dx * dx + dy * dy)
    if dist = 0 then pts
    else
      let diff := s.length - dist
      let percent := diff / dist / 2
      let offsetX := dx * percent
      let offsetY := dy * percent
      let newP0 := if p0.isPinned then p0
        else { p0 with x := p0.x - offsetX, y := p0.y - offsetY }
      let newP1 := if p1.isPinned then p1
        else { p1 with x := p1.x + offsetX, y := p1.y + offsetY }
      (pts.set s.i0 newP0).set s.i1 newP1
  | _, _ => pts

/-- One pass over all sticks, in the fixed list order of the source. -/
def relaxPass (sticks : List PhysicsStick) (pts : List PhysicsPoint) :
    List PhysicsPoint :=
  sticks.foldl relaxStick pts

/-- n relaxation passes; updateCollapse runs exactly 5. -/
def relaxIterations : Nat → List PhysicsStick → List PhysicsPoint → List PhysicsPoint
  | 0, _, pts => pts
  | n + 1, sticks, pts => relaxIterations n sticks (relaxPass sticks pts)

/-- updateCollapse of app.component.ts: Verlet integration with gravity
on every unpinned particle, 5 stick relaxation passes, then the floor
clamp. -/
def updateCollapse (pts : List PhysicsPoint) (sticks : List PhysicsStick)
    (deltaTime floorY : ℝ) : List PhysicsPoint :=
  let gravity := 9.8 * 100 * deltaTime * deltaTime
  let integrated := pts.map (fun p =>
    if p.isPinned then p
    else { x := p.x + (p.x - p.oldX), y := p.y + (p.y - p.oldY) + gravity,
           oldX := p.x, oldY := p.y, isPinned := p.isPinned })
  let relaxed := relaxIterations 5 sticks integrated
  relaxed.map (fun p => if p.y > floorY then { p with y := floorY } else p)

/-- Distance between the first two particles of a list, the observable
the single-stick convergence property is about. -/
def endpointDist (pts : List PhysicsPoint) : ℝ :=
  match pts with
  | p0 :: p1 :: _ =>
    Real.sqrt ((p1.x - p0.x) * (p1.x - p0.x) + (p1.y - p0.y) * (p1.y - p0.y))
  | _ => 0

/-! Theorems. -/

/-- The list arm of the resolver is a pointwise map of the bone arm. -/
theorem computeGlobalPositionsList_eq_map (cs : List Bone) (ex ey ga : ℝ) :
    computeGlobalPositionsList cs ex ey ga =
      cs.map (fun c => computeGlobalPositions c ex ey ga) := by
  induction cs with
  | nil => simp [computeGlobalPositionsList]
  | cons c cs ih => simp [computeGlobalPositionsList, ih]

/-- Claim C1: for every bone tree, origin and parent world angle, the
global pose resolver sets globalAngle to parentWorldAngle plus the local
angle, globalPos.start to the origin, globalPos.end to the origin plus
length times (cos globalAngle, sin globalAngle), and recurses into each
child with the end point and globalAngle of this bone; in particular a single
bone at local angle theta rooted at the origin with parent angle 0
resolves to end = (length * cos theta, length * sin theta). -/
theorem computeGlobalPositions_resolves (b : Bone) (originX originY parentWorldAngle : ℝ) :
    (computeGlobalPositions b originX originY parentWorldAngle).globalAngle =
        some (parentWorldAngle + b.angle)
  ∧ (computeGlobalPositions b originX originY parentWorldAngle).globalPos =
        some ⟨⟨originX, originY⟩,
          ⟨originX + Real.cos (parentWorldAngle + b.angle) * b.length,
           originY + Real.sin (parentWorldAngle + b.angle) * b.length⟩⟩
  ∧ (computeGlobalPositions b originX originY parentWorldAngle).children =
        b.children.map (fun child => computeGlobalPositions child
          (originX + Real.cos (parentWorldAngle + b.angle) * b.length)
          (originY + Real.sin (parentWorldAngle + b.angle) * b.length)
          (parentWorldAngle + b.angle))
  ∧ ∀ (nm : String) (len theta m : ℝ) (vis : Option Bool),
      (computeGlobalPositions (.node nm len theta m vis none none []) 0 0 0).globalPos =
        some ⟨⟨0, 0⟩, ⟨len * Real.cos theta, len * Real.sin theta⟩⟩ := by
  obtain ⟨n, len, ang, m, vis, ga, gp, cs⟩ := b
  refine ⟨?_, ?_, ?_, ?_⟩
  · simp [computeGlobalPositions, Bone.globalAngle, Bone.angle]
  · simp [computeGlobalPositions, Bone.globalPos, Bone.angle, Bone.length]
  · simp [computeGlobalPositions, Bone.children, Bone.angle, Bone.length,
      computeGlobalPositionsList_eq_map]
  · intro nm l theta mm vis
    simp [computeGlobalPositions, computeGlobalPositionsList, Bone.globalPos]
    constructor <;> ring

/-- Helper: exact value of solveTwoBoneIK in the reachable branch, shared
by the reachable-case results below. -/
theorem solveTwoBoneIK_reachable_aux (root : Bone) (endEffectorName : String)
    (targetPos : Vec2) (n1 n2 : String) (rootStart parEnd : Vec2)
    (l1 l2 d parAngle : ℝ)
    (hchain : getIKChainNames endEffectorName = some (n1, n2))
    (hgp : (root.globalPos).map Pose.start = some rootStart)
    (hb1 : (findBone (computeGlobalPositions root rootStart.x rootStart.y 0) n1).map
        Bone.length = some l1)
    (hb2 : (findBone (computeGlobalPositions root rootStart.x rootStart.y 0) n2).map
        Bone.length = some l2)
    (hpargp : ((findParentBone (computeGlobalPositions root rootStart.x rootStart.y 0) n1).bind
        Bone.globalPos).map Pose.stop = some parEnd)
    (hparga : (findParentBone (computeGlobalPositions root rootStart.x rootStart.y 0) n1).map
        (fun b => (Bone.globalAngle b).getD 0) = some parAngle)
    (hd : d = Real.sqrt ((targetPos.x - parEnd.x) * (targetPos.x - parEnd.x) +
        (targetPos.y - parEnd.y) * (targetPos.y - parEnd.y)))
    (hreach : d ≤ l1 + l2) :
    solveTwoBoneIK root endEffectorName targetPos =
      setAngleFirst (setAngleFirst
          (computeGlobalPositions root rootStart.x rootStart.y 0) n1
          (atan2 (targetPos.y - parEnd.y) (targetPos.x - parEnd.x)
            + ikBendDirection endEffectorName *
                Real.arccos (clamp1 ((d * d + l1 * l1 - l2 * l2) / (2 * d * l1)))
            - parAngle)) n2
        (ikBendDirection endEffectorName *
          (Real.arccos (clamp1 ((l1 * l1 + l2 * l2 - d * d) / (2 * l1 * l2))) - Real.pi)) := by
  obtain ⟨gp, hgpf, hgps⟩ := Option.map_eq_some'.mp hgp
  obtain ⟨bone1, hb1f, hb1len⟩ := Option.map_eq_some'.mp hb1
  obtain ⟨bone2, hb2f, hb2len⟩ := Option.map_eq_some'.mp hb2
  obtain ⟨pgp, hpgpf, hpgps⟩ := Option.map_eq_some'.mp hpargp
  obtain ⟨par, hparf, hpargpf⟩ := Option.bind_eq_some.mp hpgpf
  obtain ⟨par2, hparf2, hparga2⟩ := Option.map_eq_some'.mp hparga
  rw [hparf] at hparf2
  injection hparf2 with hpar2
  subst hpar2
  have hstart : gp.start = rootStart := hgps
  have hnotlt : ¬ (Real.sqrt ((targetPos.x - parEnd.x) * (targetPos.x - parEnd.x) +
      (targetPos.y - parEnd.y) * (targetPos.y - parEnd.y)) > l1 + l2) := by
    rw [← hd]; exact not_lt.mpr hreach
  simp only [solveTwoBoneIK, hchain, hgpf, Option.map_some', hstart, hb1f, hb2f,
    hparf, hpargpf, hb1len, hb2len, hpgps, hparga2, hd]
  rw [if_neg hnotlt]

/-- Helper: exact value of solveTwoBoneIK in the unreachable branch. -/
theorem solveTwoBoneIK_unreachable_aux (root : Bone) (endEffectorName : String)
    (targetPos : Vec2) (n1 n2 : String) (rootStart parEnd : Vec2)
    (l1 l2 d parAngle : ℝ)
    (hchain : getIKChainNames endEffectorName = some (n1, n2))
    (hgp : (root.globalPos).map Pose.start = some rootStart)
    (hb1 : (findBone (computeGlobalPositions root rootStart.x rootStart.y 0) n1).map
        Bone.length = some l1)
    (hb2 : (findBone (computeGlobalPositions root rootStart.x rootStart.y 0) n2).map
        Bone.length = some l2)
    (hpargp : ((findParentBone (computeGlobalPositions root rootStart.x rootStart.y 0) n1).bind
        Bone.globalPos).map Pose.stop = some parEnd)
    (hparga : (findParentBone (computeGlobalPositions root rootStart.x rootStart.y 0) n1).map
        (fun b => (Bone.globalAngle b).getD 0) = some parAngle)
    (hd : d = Real.sqrt ((targetPos.x - parEnd.x) * (targetPos.x - parEnd.x) +
        (targetPos.y - parEnd.y) * (targetPos.y - parEnd.y)))
    (hfar : l1 + l2 < d) :
    solveTwoBoneIK root endEffectorName targetPos =
      setAngleFirst (setAngleFirst
          (computeGlobalPositions root rootStart.x rootStart.y 0) n1
          (atan2 (targetPos.y - parEnd.y) (targetPos.x - parEnd.x) - parAngle)) n2 0 := by
  obtain ⟨gp, hgpf, hgps⟩ := Option.map_eq_some'.mp hgp
  obtain ⟨bone1, hb1f, hb1len⟩ := Option.map_eq_some'.mp hb1
  obtain ⟨bone2, hb2f, hb2len⟩ := Option.map_eq_some'.mp hb2
  obtain ⟨pgp, hpgpf, hpgps⟩ := Option.map_eq_some'.mp hpargp
  obtain ⟨par, hparf, hpargpf⟩ := Option.bind_eq_some.mp hpgpf
  obtain ⟨par2, hparf2, hparga2⟩ := Option.map_eq_some'.mp hparga
  rw [hparf] at hparf2
  injection hparf2 with hpar2
  subst hpar2
  have hstart : gp.start = rootStart := hgps
  have hlt : Real.sqrt ((targetPos.x - parEnd.x) * (targetPos.x - parEnd.x) +
      (targetPos.y - parEnd.y) * (targetPos.y - parEnd.y)) > l1 + l2 := by
    rw [← hd]; exact hfar
  simp only [solveTwoBoneIK, hchain, hgpf, Option.map_some', hstart, hb1f, hb2f,
    hparf, hpargpf, hb1len, hb2len, hpgps, hparga2, hd]
  rw [if_pos hlt]

/-- Claim C2: on a reachable target (d le l1 + l2, with positive lengths
and distance), solveTwoBoneIK computes angle1 and angle2 by the clamped
law of cosines, writes the local angle of bone1 as atan2(target minus
chainRoot) plus bendDirection * angle1 minus the world angle of the chain
root, writes bone2.angle = bendDirection * (angle2 - pi), and
bendDirection is -1 exactly for the effectors L_Foot and L_Hand and +1
for all others. -/
theorem solveTwoBoneIK_reachable (root : Bone) (endEffectorName : String)
    (targetPos : Vec2) (n1 n2 : String) (rootStart parEnd : Vec2)
    (l1 l2 d parAngle : ℝ)
    (hchain : getIKChainNames endEffectorName = some (n1, n2))
    (hgp : (root.globalPos).map Pose.start = some rootStart)
    (hb1 : (findBone (computeGlobalPositions root rootStart.x rootStart.y 0) n1).map
        Bone.length = some l1)
    (hb2 : (findBone (computeGlobalPositions root rootStart.x rootStart.y 0) n2).map
        Bone.length = some l2)
    (hpargp : ((findParentBone (computeGlobalPositions root rootStart.x rootStart.y 0) n1).bind
        Bone.globalPos).map Pose.stop = some parEnd)
    (hparga : (findParentBone (computeGlobalPositions root rootStart.x rootStart.y 0) n1).map
        (fun b => (Bone.globalAngle b).getD 0) = some parAngle)
    (hd : d = Real.sqrt ((targetPos.x - parEnd.x) * (targetPos.x - parEnd.x) +
        (targetPos.y - parEnd.y) * (targetPos.y - parEnd.y)))
    (hl1pos : 0 < l1) (hl2pos : 0 < l2) (hdpos : 0 < d)
    (hreach : d ≤ l1 + l2) :
    solveTwoBoneIK root endEffectorName targetPos =
      setAngleFirst (setAngleFirst
          (computeGlobalPositions root rootStart.x rootStart.y 0) n1
          (atan2 (targetPos.y - parEnd.y) (targetPos.x - parEnd.x)
            + ikBendDirection endEffectorName *
                Real.arccos (clamp1 ((d * d + l1 * l1 - l2 * l2) / (2 * d * l1)))
            - parAngle)) n2
        (ikBendDirection endEffectorName *
          (Real.arccos (clamp1 ((l1 * l1 + l2 * l2 - d * d) / (2 * l1 * l2))) - Real.pi))
  ∧ ikBendDirection "L_Foot" = -1 ∧ ikBendDirection "L_Hand" = -1
  ∧ ∀ e, e ≠ "L_Foot" → e ≠ "L_Hand" → ikBendDirection e = 1 := by
  refine ⟨solveTwoBoneIK_reachable_aux root endEffectorName targetPos n1 n2 rootStart
      parEnd l1 l2 d parAngle hchain hgp hb1 hb2 hpargp hparga hd hreach,
    by simp [ikBendDirection], by simp [ikBendDirection],
    fun e he1 he2 => by simp [ikBendDirection, he1, he2]⟩

/-- A minimal two-bone chain fixture for the IK solver: a zero-length
root named Navel whose globalPos is pinned at the origin, carrying the
R_Hand chain R_Shoulder / R_Forearm with the given lengths, all local
angles zero. -/
def ikChainFixture (l1 l2 : ℝ) : Bone :=
  Bone.node "Navel" 0 0 10 none none (some ⟨⟨0, 0⟩, ⟨0, 0⟩⟩)
    [Bone.node "R_Shoulder" l1 0 6 none none none
      [Bone.node "R_Forearm" l2 0 5 none none none []]]

/-- Witness for C2: on the chain with both lengths 2 and the boundary
target (4, 0), the reachable-case formulas give both new angles equal to
0, so the solver returns exactly the re-resolved fixture. -/
theorem solveTwoBoneIK_reachable_witness :
    solveTwoBoneIK (ikChainFixture 2 2) "R_Hand" ⟨4, 0⟩ =
      computeGlobalPositions (ikChainFixture 2 2) (0 : ℝ) (0 : ℝ) 0 := by
  have happ := (solveTwoBoneIK_reachable (ikChainFixture 2 2) "R_Hand" ⟨4, 0⟩
    "R_Shoulder" "R_Forearm" ⟨0, 0⟩ ⟨0, 0⟩ 2 2 4 0
    (by simp [getIKChainNames])
    (by simp [ikChainFixture, Bone.globalPos, Pose.start])
    (by simp [ikChainFixture, computeGlobalPositions, computeGlobalPositionsList,
      findBone, findBoneList, Bone.length])
    (by simp [ikChainFixture, computeGlobalPositions, computeGlobalPositionsList,
      findBone, findBoneList, Bone.length])
    (by simp [ikChainFixture, computeGlobalPositions, computeGlobalPositionsList,
      findParentBone, findParentInChildren, findBone, findBoneList,
      Bone.globalPos, Bone.name, Pose.stop])
    (by simp [ikChainFixture, computeGlobalPositions, computeGlobalPositionsList,
      findParentBone, findParentInChildren, findBone, findBoneList,
      Bone.globalAngle, Bone.name])
    (by
      have h : (((Vec2.mk (4:ℝ) 0).x - (Vec2.mk (0:ℝ) 0).x) * ((Vec2.mk (4:ℝ) 0).x - (Vec2.mk (0:ℝ) 0).x) +
          ((Vec2.mk (4:ℝ) 0).y - (Vec2.mk (0:ℝ) 0).y) * ((Vec2.mk (4:ℝ) 0).y - (Vec2.mk (0:ℝ) 0).y)) = (4 : ℝ) ^ 2 := by
        norm_num
      rw [h, Real.sqrt_sq (by norm_num : (0:ℝ) ≤ 4)])
    (by norm_num) (by norm_num) (by norm_num) (by norm_num)).1
  rw [happ]
  have hA1 : atan2 ((Vec2.mk (4:ℝ) 0).y - (Vec2.mk (0:ℝ) 0).y) ((Vec2.mk (4:ℝ) 0).x - (Vec2.mk (0:ℝ) 0).x)
      + ikBendDirection "R_Hand" * Real.arccos (clamp1 (((4:ℝ) * 4 + 2 * 2 - 2 * 2) / (2 * 4 * 2))) - 0 = 0 := by
    norm_num [atan2, ikBendDirection, clamp1, Real.arccos_one, Real.arctan_zero]
  have hA2 : ikBendDirection "R_Hand" *
      (Real.arccos (clamp1 (((2:ℝ) * 2 + 2 * 2 - 4 * 4) / (2 * 2 * 2))) - Real.pi) = 0 := by
    norm_num [ikBendDirection, clamp1, Real.arccos_neg_one]
  rw [hA1, hA2]
  simp [ikChainFixture, computeGlobalPositions, computeGlobalPositionsList,
    setAngleFirst, modifyAngleFirst, modifyAngleFirstList, containsBone, containsBoneList]

/-- Claim C3: on an unreachable target (l1 + l2 lt d), solveTwoBoneIK
fully extends the limb: bone1 points straight at the target (local angle
atan2(target minus chainRoot) minus the chain root world angle) and
bone2.angle is set to exactly 0, with no error raised. -/
theorem solveTwoBoneIK_unreachable (root : Bone) (endEffectorName : String)
    (targetPos : Vec2) (n1 n2 : String) (rootStart parEnd : Vec2)
    (l1 l2 d parAngle : ℝ)
    (hchain : getIKChainNames endEffectorName = some (n1, n2))
    (hgp : (root.globalPos).map Pose.start = some rootStart)
    (hb1 : (findBone (computeGlobalPositions root rootStart.x rootStart.y 0) n1).map
        Bone.length = some l1)
    (hb2 : (findBone (computeGlobalPositions root rootStart.x rootStart.y 0) n2).map
        Bone.length = some l2)
    (hpargp : ((findParentBone (computeGlobalPositions root rootStart.x rootStart.y 0) n1).bind
        Bone.globalPos).map Pose.stop = some parEnd)
    (hparga : (findParentBone (computeGlobalPositions root rootStart.x rootStart.y 0) n1).map
        (fun b => (Bone.globalAngle b).getD 0) = some parAngle)
    (hd : d = Real.sqrt ((targetPos.x - parEnd.x) * (targetPos.x - parEnd.x) +
        (targetPos.y - parEnd.y) * (targetPos.y - parEnd.y)))
    (hfar : l1 + l2 < d) :
    solveTwoBoneIK root endEffectorName targetPos =
      setAngleFirst (setAngleFirst
          (computeGlobalPositions root rootStart.x rootStart.y 0) n1
          (atan2 (targetPos.y - parEnd.y) (targetPos.x - parEnd.x) - parAngle)) n2 0 :=
  solveTwoBoneIK_unreachable_aux root endEffectorName targetPos n1 n2 rootStart
    parEnd l1 l2 d parAngle hchain hgp hb1 hb2 hpargp hparga hd hfar

/-- Witness for C3: with l1 = l2 = 100 and a target at distance 250 the
limb fully extends; here bone1 already points at the target so the solver
returns exactly the re-resolved fixture, whose R_Forearm angle is 0. -/
theorem solveTwoBoneIK_unreachable_witness :
    solveTwoBoneIK (ikChainFixture 100 100) "R_Hand" ⟨250, 0⟩ =
      computeGlobalPositions (ikChainFixture 100 100) (0 : ℝ) (0 : ℝ) 0 := by
  have happ := solveTwoBoneIK_unreachable (ikChainFixture 100 100) "R_Hand" ⟨250, 0⟩
    "R_Shoulder" "R_Forearm" ⟨0, 0⟩ ⟨0, 0⟩ 100 100 250 0
    (by simp [getIKChainNames])
    (by simp [ikChainFixture, Bone.globalPos, Pose.start])
    (by simp [ikChainFixture, computeGlobalPositions, computeGlobalPositionsList,
      findBone, findBoneList, Bone.length])
    (by simp [ikChainFixture, computeGlobalPositions, computeGlobalPositionsList,
      findBone, findBoneList, Bone.length])
    (by simp [ikChainFixture, computeGlobalPositions, computeGlobalPositionsList,
      findParentBone, findParentInChildren, findBone, findBoneList,
      Bone.globalPos, Bone.name, Pose.stop])
    (by simp [ikChainFixture, computeGlobalPositions, computeGlobalPositionsList,
      findParentBone, findParentInChildren, findBone, findBoneList,
      Bone.globalAngle, Bone.name])
    (by
      have h : (((Vec2.mk (250:ℝ) 0).x - (Vec2.mk (0:ℝ) 0).x) * ((Vec2.mk (250:ℝ) 0).x - (Vec2.mk (0:ℝ) 0).x) +
          ((Vec2.mk (250:ℝ) 0).y - (Vec2.mk (0:ℝ) 0).y) * ((Vec2.mk (250:ℝ) 0).y - (Vec2.mk (0:ℝ) 0).y)) = (250 : ℝ) ^ 2 := by
        norm_num
      rw [h, Real.sqrt_sq (by norm_num : (0:ℝ) ≤ 250)])
    (by norm_num)
  rw [happ]
  have hA1 : atan2 ((Vec2.mk (250:ℝ) 0).y - (Vec2.mk (0:ℝ) 0).y) ((Vec2.mk (250:ℝ) 0).x - (Vec2.mk (0:ℝ) 0).x)
      - 0 = 0 := by
    norm_num [atan2, Real.arctan_zero]
  rw [hA1]
  simp [ikChainFixture, computeGlobalPositions, computeGlobalPositionsList,
    setAngleFirst, modifyAngleFirst, modifyAngleFirstList, containsBone, containsBoneList]

/-- Helper: the clamped cosine ratio of the fold case evaluates to
pi / 3, not to 0: with d = l1 = l2 the ratio is 1 / 2. -/
theorem arccos_clamp_half : Real.arccos (clamp1 ((100 * 100 + 100 * 100 - 100 * 100) / (2 * 100 * 100) : ℝ)) =
    Real.pi / 3 := by
  have hr : ((100 * 100 + 100 * 100 - 100 * 100) / (2 * 100 * 100) : ℝ) = 1 / 2 := by norm_num
  have hc : clamp1 ((1 : ℝ) / 2) = 1 / 2 := by
    rw [clamp1, min_eq_right (by norm_num : (1:ℝ)/2 ≤ 1),
      max_eq_right (by norm_num : (-1 : ℝ) ≤ 1/2)]
  rw [hr, hc, ← Real.cos_pi_div_three,
    Real.arccos_cos (by positivity) (by linarith [Real.pi_pos])]

/-- Counterexample for C7: with l1 = l2 = 100 and a target at distance
exactly 100 the code sets bone2.angle to pi / 3 - pi (angle2 =
acos(1 / 2) = pi / 3), which differs from the claimed value
bendDirection * (acos 1 - pi) = bendDirection * (0 - pi). -/
theorem solveTwoBoneIK_fold_counterexample :
    boneAngleIn (solveTwoBoneIK (ikChainFixture 100 100) "R_Hand" ⟨100, 0⟩) "R_Forearm" =
      Real.pi / 3 - Real.pi
  ∧ Real.pi / 3 - Real.pi ≠ ikBendDirection "R_Hand" * (0 - Real.pi) := by
  have happ := solveTwoBoneIK_reachable_aux (ikChainFixture 100 100) "R_Hand" ⟨100, 0⟩
    "R_Shoulder" "R_Forearm" ⟨0, 0⟩ ⟨0, 0⟩ 100 100 100 0
    (by simp [getIKChainNames])
    (by simp [ikChainFixture, Bone.globalPos, Pose.start])
    (by simp [ikChainFixture, computeGlobalPositions, computeGlobalPositionsList,
      findBone, findBoneList, Bone.length])
    (by simp [ikChainFixture, computeGlobalPositions, computeGlobalPositionsList,
      findBone, findBoneList, Bone.length])
    (by simp [ikChainFixture, computeGlobalPositions, computeGlobalPositionsList,
      findParentBone, findParentInChildren, findBone, findBoneList,
      Bone.globalPos, Bone.name, Pose.stop])
    (by simp [ikChainFixture, computeGlobalPositions, computeGlobalPositionsList,
      findParentBone, findParentInChildren, findBone, findBoneList,
      Bone.globalAngle, Bone.name])
    (by
      have h : (((Vec2.mk (100:ℝ) 0).x - (Vec2.mk (0:ℝ) 0).x) * ((Vec2.mk (100:ℝ) 0).x - (Vec2.mk (0:ℝ) 0).x) +
          ((Vec2.mk (100:ℝ) 0).y - (Vec2.mk (0:ℝ) 0).y) * ((Vec2.mk (100:ℝ) 0).y - (Vec2.mk (0:ℝ) 0).y)) = (100 : ℝ) ^ 2 := by
        norm_num
      rw [h, Real.sqrt_sq (by norm_num : (0:ℝ) ≤ 100)])
    (by norm_num)
  have hbend : ikBendDirection "R_Hand" = (1 : ℝ) := by simp [ikBendDirection]
  constructor
  · rw [happ]
    have e1 : atan2 ((Vec2.mk (100:ℝ) 0).y - (Vec2.mk (0:ℝ) 0).y)
          ((Vec2.mk (100:ℝ) 0).x - (Vec2.mk (0:ℝ) 0).x)
        + ikBendDirection "R_Hand" *
            Real.arccos (clamp1 (((100:ℝ) * 100 + 100 * 100 - 100 * 100) / (2 * 100 * 100)))
        - 0 = Real.pi / 3 := by
      rw [arccos_clamp_half, hbend]; norm_num [atan2, Real.arctan_zero]
    have e2 : ikBendDirection "R_Hand" *
        (Real.arccos (clamp1 (((100:ℝ) * 100 + 100 * 100 - 100 * 100) / (2 * 100 * 100))) - Real.pi) =
          Real.pi / 3 - Real.pi := by
      rw [arccos_clamp_half, hbend]; ring
    rw [e1, e2]
    simp [boneAngleIn, ikChainFixture, computeGlobalPositions, computeGlobalPositionsList,
      setAngleFirst, modifyAngleFirst, modifyAngleFirstList, containsBone, containsBoneList,
      findBone, findBoneList, Bone.angle]
  · intro h
    rw [hbend, one_mul] at h
    have := Real.pi_pos
    linarith

/-- Claim C7 amended: with l1 = l2 = 100 and a target at distance exactly
100 (an equilateral configuration, not a full fold), solveTwoBoneIK sets
angle2 = acos(clamp 1/2) = pi / 3 and bone2.angle = bendDirection *
(pi / 3 - pi); the claimed extreme bendDirection * (0 - pi) would require
distance 0, not 100. -/
theorem solveTwoBoneIK_fold_amended (root : Bone) (endEffectorName : String)
    (targetPos : Vec2) (n1 n2 : String) (rootStart parEnd : Vec2) (parAngle : ℝ)
    (hchain : getIKChainNames endEffectorName = some (n1, n2))
    (hgp : (root.globalPos).map Pose.start = some rootStart)
    (hb1 : (findBone (computeGlobalPositions root rootStart.x rootStart.y 0) n1).map
        Bone.length = some 100)
    (hb2 : (findBone (computeGlobalPositions root rootStart.x rootStart.y 0) n2).map
        Bone.length = some 100)
    (hpargp : ((findParentBone (computeGlobalPositions root rootStart.x rootStart.y 0) n1).bind
        Bone.globalPos).map Pose.stop = some parEnd)
    (hparga : (findParentBone (computeGlobalPositions root rootStart.x rootStart.y 0) n1).map
        (fun b => (Bone.globalAngle b).getD 0) = some parAngle)
    (hd100 : Real.sqrt ((targetPos.x - parEnd.x) * (targetPos.x - parEnd.x) +
        (targetPos.y - parEnd.y) * (targetPos.y - parEnd.y)) = 100) :
    solveTwoBoneIK root endEffectorName targetPos =
      setAngleFirst (setAngleFirst
          (computeGlobalPositions root rootStart.x rootStart.y 0) n1
          (atan2 (targetPos.y - parEnd.y) (targetPos.x - parEnd.x)
            + ikBendDirection endEffectorName * (Real.pi / 3) - parAngle)) n2
        (ikBendDirection endEffectorName * (Real.pi / 3 - Real.pi)) := by
  have happ := solveTwoBoneIK_reachable_aux root endEffectorName targetPos n1 n2
    rootStart parEnd 100 100 100 parAngle hchain hgp hb1 hb2 hpargp hparga
    hd100.symm (by norm_num)
  rw [happ, arccos_clamp_half]

/-- Witness for the amended C7: the concrete equilateral configuration on
the fixture chain, with the chain root at the origin and target (100, 0),
yields exactly the angles pi / 3 and pi / 3 - pi. -/
theorem solveTwoBoneIK_fold_amended_witness :
    solveTwoBoneIK (ikChainFixture 100 100) "R_Hand" ⟨100, 0⟩ =
      setAngleFirst (setAngleFirst
          (computeGlobalPositions (ikChainFixture 100 100) (0 : ℝ) (0 : ℝ) 0)
          "R_Shoulder" (Real.pi / 3)) "R_Forearm" (Real.pi / 3 - Real.pi) := by
  have happ := solveTwoBoneIK_fold_amended (ikChainFixture 100 100) "R_Hand" ⟨100, 0⟩
    "R_Shoulder" "R_Forearm" ⟨0, 0⟩ ⟨0, 0⟩ 0
    (by simp [getIKChainNames])
    (by simp [ikChainFixture, Bone.globalPos, Pose.start])
    (by simp [ikChainFixture, computeGlobalPositions, computeGlobalPositionsList,
      findBone, findBoneList, Bone.length])
    (by simp [ikChainFixture, computeGlobalPositions, computeGlobalPositionsList,
      findBone, findBoneList, Bone.length])
    (by simp [ikChainFixture, computeGlobalPositions, computeGlobalPositionsList,
      findParentBone, findParentInChildren, findBone, findBoneList,
      Bone.globalPos, Bone.name, Pose.stop])
    (by simp [ikChainFixture, computeGlobalPositions, computeGlobalPositionsList,
      findParentBone, findParentInChildren, findBone, findBoneList,
      Bone.globalAngle, Bone.name])
    (by
      have h : (((Vec2.mk (100:ℝ) 0).x - (Vec2.mk (0:ℝ) 0).x) * ((Vec2.mk (100:ℝ) 0).x - (Vec2.mk (0:ℝ) 0).x) +
          ((Vec2.mk (100:ℝ) 0).y - (Vec2.mk (0:ℝ) 0).y) * ((Vec2.mk (100:ℝ) 0).y - (Vec2.mk (0:ℝ) 0).y)) = (100 : ℝ) ^ 2 := by
        norm_num
      rw [h, Real.sqrt_sq (by norm_num : (0:ℝ) ≤ 100)])
  rw [happ]
  have hbend : ikBendDirection "R_Hand" = (1 : ℝ) := by simp [ikBendDirection]
  have e1 : atan2 ((Vec2.mk (100:ℝ) 0).y - (Vec2.mk (0:ℝ) 0).y) ((Vec2.mk (100:ℝ) 0).x - (Vec2.mk (0:ℝ) 0).x)
      + ikBendDirection "R_Hand" * (Real.pi / 3) - 0 = Real.pi / 3 := by
    rw [hbend]; norm_num [atan2, Real.arctan_zero]
  have e2 : ikBendDirection "R_Hand" * (Real.pi / 3 - Real.pi) = Real.pi / 3 - Real.pi := by
    rw [hbend, one_mul]
  rw [e1, e2]

/-- The two chain bone names of an effector as a list, empty when the
effector has no chain. -/
def ikChainList (eff : String) : List String :=
  match getIKChainNames eff with
  | some (a, b) => [a, b]
  | none => []

mutual

/-- Structural agreement of two bone trees up to the local angles of the
bones named in S: names, lengths, masses, visible flags and tree shape
coincide, and every bone whose name is outside S keeps its local angle.
The derived globalAngle and globalPos fields are deliberately left
unconstrained. -/
def sameSkeletonExceptAngles (S : List String) : Bone → Bone → Prop
  | .node n1 l1 a1 m1 v1 _ _ cs1, .node n2 l2 a2 m2 v2 _ _ cs2 =>
    n1 = n2 ∧ l1 = l2 ∧ m1 = m2 ∧ v1 = v2 ∧ (a1 = a2 ∨ n1 ∈ S) ∧
      sameSkeletonExceptAnglesList S cs1 cs2

def sameSkeletonExceptAnglesList (S : List String) : List Bone → List Bone → Prop
  | [], [] => True
  | c :: cs, d :: ds =>
    sameSkeletonExceptAngles S c d ∧ sameSkeletonExceptAnglesList S cs ds
  | _, _ => False

end

mutual

theorem sea_refl (S : List String) : ∀ b : Bone, sameSkeletonExceptAngles S b b
  | .node n l ang m v ga gp cs => by
    simp only [sameSkeletonExceptAngles]
    exact ⟨by simp, by simp, by simp, by simp, by simp, sea_refl_list S cs⟩

theorem sea_refl_list (S : List String) :
    ∀ cs : List Bone, sameSkeletonExceptAnglesList S cs cs
  | [] => by simp only [sameSkeletonExceptAnglesList]
  | c :: cs => by
    simp only [sameSkeletonExceptAnglesList]
    exact ⟨sea_refl S c, sea_refl_list S cs⟩

end

mutual

theorem sea_resolve (S : List String) : ∀ (b : Bone) (x y a : ℝ),
    sameSkeletonExceptAngles S b (computeGlobalPositions b x y a)
  | .node n l ang m v ga gp cs, x, y, a => by
    simp only [computeGlobalPositions, sameSkeletonExceptAngles]
    exact ⟨by simp, by simp, by simp, by simp, by simp, sea_resolve_list S cs _ _ _⟩

theorem sea_resolve_list (S : List String) : ∀ (cs : List Bone) (x y a : ℝ),
    sameSkeletonExceptAnglesList S cs (computeGlobalPositionsList cs x y a)
  | [], _, _, _ => by simp only [computeGlobalPositionsList, sameSkeletonExceptAnglesList]
  | c :: cs, x, y, a => by
    simp only [computeGlobalPositionsList, sameSkeletonExceptAnglesList]
    exact ⟨sea_resolve S c x y a, sea_resolve_list S cs x y a⟩

end

mutual

theorem sea_modifyAngle (S : List String) (n : String) (f : ℝ → ℝ) (hn : n ∈ S) :
    ∀ t u, sameSkeletonExceptAngles S t u →
      sameSkeletonExceptAngles S t (modifyAngleFirst u n f)
  | .node tn tl ta tm tv tga tgp tcs, .node un ul ua um uv uga ugp ucs, h => by
    simp only [sameSkeletonExceptAngles] at h
    obtain ⟨hn1, hl, hm, hv, hang, hcs⟩ := h
    simp only [modifyAngleFirst]
    split
    · next heq =>
      simp only [sameSkeletonExceptAngles]
      exact ⟨hn1, hl, hm, hv, Or.inr (by rw [hn1, heq]; exact hn), hcs⟩
    · simp only [sameSkeletonExceptAngles]
      exact ⟨hn1, hl, hm, hv, hang, sea_modifyAngle_list S n f hn tcs ucs hcs⟩

theorem sea_modifyAngle_list (S : List String) (n : String) (f : ℝ → ℝ) (hn : n ∈ S) :
    ∀ ts us, sameSkeletonExceptAnglesList S ts us →
      sameSkeletonExceptAnglesList S ts (modifyAngleFirstList us n f)
  | [], [], _ => by simp only [modifyAngleFirstList, sameSkeletonExceptAnglesList]
  | t :: ts, u :: us, h => by
    simp only [sameSkeletonExceptAnglesList] at h
    obtain ⟨h1, h2⟩ := h
    simp only [modifyAngleFirstList]
    split
    · simp only [sameSkeletonExceptAnglesList]
      exact ⟨sea_modifyAngle S n f hn t u h1, h2⟩
    · simp only [sameSkeletonExceptAnglesList]
      exact ⟨h1, sea_modifyAngle_list S n f hn ts us h2⟩
  | [], u :: us, h => by
    simp only [sameSkeletonExceptAnglesList] at h
  | t :: ts, [], h => by
    simp only [sameSkeletonExceptAnglesList] at h

end

/-- setAngleFirst preserves the agreement when the written name is
excepted. -/
theorem sea_setAngle (S : List String) (n : String) (v : ℝ) (hn : n ∈ S)
    (t u : Bone) (h : sameSkeletonExceptAngles S t u) :
    sameSkeletonExceptAngles S t (setAngleFirst u n v) :=
  sea_modifyAngle S n (fun _ => v) hn t u h

/-- Counterexample for C9: the solver does modify a field of a bone other
than bone1 and bone2. On the fixture chain, the root bone Navel is
neither chain bone, yet its globalAngle field is none before the call and
some 0 after it, because solveTwoBoneIK re-resolves the whole tree in
place. -/
theorem solveTwoBoneIK_framing_counterexample :
    (ikChainFixture 2 2).globalAngle = none
  ∧ (solveTwoBoneIK (ikChainFixture 2 2) "R_Hand" ⟨4, 0⟩).globalAngle = some 0
  ∧ ("Navel" : String) ≠ "R_Shoulder" ∧ ("Navel" : String) ≠ "R_Forearm" := by
  refine ⟨by simp [ikChainFixture, Bone.globalAngle], ?_, by decide, by decide⟩
  have happ := solveTwoBoneIK_reachable_aux (ikChainFixture 2 2) "R_Hand" ⟨4, 0⟩
    "R_Shoulder" "R_Forearm" ⟨0, 0⟩ ⟨0, 0⟩ 2 2 4 0
    (by simp [getIKChainNames])
    (by simp [ikChainFixture, Bone.globalPos, Pose.start])
    (by simp [ikChainFixture, computeGlobalPositions, computeGlobalPositionsList,
      findBone, findBoneList, Bone.length])
    (by simp [ikChainFixture, computeGlobalPositions, computeGlobalPositionsList,
      findBone, findBoneList, Bone.length])
    (by simp [ikChainFixture, computeGlobalPositions, computeGlobalPositionsList,
      findParentBone, findParentInChildren, findBone, findBoneList,
      Bone.globalPos, Bone.name, Pose.stop])
    (by simp [ikChainFixture, computeGlobalPositions, computeGlobalPositionsList,
      findParentBone, findParentInChildren, findBone, findBoneList,
      Bone.globalAngle, Bone.name])
    (by
      have h : (((Vec2.mk (4:ℝ) 0).x - (Vec2.mk (0:ℝ) 0).x) * ((Vec2.mk (4:ℝ) 0).x - (Vec2.mk (0:ℝ) 0).x) +
          ((Vec2.mk (4:ℝ) 0).y - (Vec2.mk (0:ℝ) 0).y) * ((Vec2.mk (4:ℝ) 0).y - (Vec2.mk (0:ℝ) 0).y)) = (4 : ℝ) ^ 2 := by
        norm_num
      rw [h, Real.sqrt_sq (by norm_num : (0:ℝ) ≤ 4)])
    (by norm_num)
  rw [happ]
  simp [ikChainFixture, computeGlobalPositions, computeGlobalPositionsList,
    setAngleFirst, modifyAngleFirst, modifyAngleFirstList, containsBone,
    containsBoneList, Bone.globalAngle]

/-- Claim C9 amended: for every skeleton instance and effector,
solveTwoBoneIK leaves the name, length, mass, visible flag and tree shape
of every bone unchanged and the local angle of every bone other than the
chain bones bone1 and bone2 unchanged; the transient derived fields
globalAngle and globalPos however are rewritten on every bone by the
internal computeGlobalPositions pass. -/
theorem solveTwoBoneIK_frame (root : Bone) (endEffectorName : String)
    (targetPos : Vec2) :
    sameSkeletonExceptAngles (ikChainList endEffectorName) root
      (solveTwoBoneIK root endEffectorName targetPos) := by
  unfold solveTwoBoneIK
  split
  · exact sea_refl _ root
  next n1 n2 hchain =>
    have hn1 : n1 ∈ ikChainList endEffectorName := by
      simp [ikChainList, hchain]
    have hn2 : n2 ∈ ikChainList endEffectorName := by
      simp [ikChainList, hchain]
    split
    · exact sea_refl _ root
    next gp hgp =>
      dsimp only
      split
      next bone1 bone2 par hb1 hb2 hpar =>
        split
        · exact sea_resolve _ root _ _ _
        next parGP hpgp =>
          split
          · exact sea_setAngle _ n2 _ hn2 _ _ (sea_setAngle _ n1 _ hn1 _ _
              (sea_resolve _ root _ _ _))
          · exact sea_setAngle _ n2 _ hn2 _ _ (sea_setAngle _ n1 _ hn1 _ _
              (sea_resolve _ root _ _ _))
      next =>
        exact sea_resolve _ root _ _ _

/-- Helper: a blend tick of an inactive transition changes nothing. -/
theorem updateTransitionAnimation_inactive (s : SimState)
    (h : s.animationState.active = false) : updateTransitionAnimation s = s := by
  simp [updateTransitionAnimation, h]

/-- Helper: an intermediate blend tick (one that does not reach the
duration) only advances the frame counter of the animation state and
keeps the mode. -/
theorem updateTransitionAnimation_step (s : SimState) (startSk targetSk : Bone)
    (tMode : MotionMode)
    (hact : s.animationState.active = true)
    (hs : s.animationState.startSkeleton = some startSk)
    (ht : s.animationState.targetSkeleton = some targetSk)
    (hm : s.animationState.targetMode = some tMode)
    (hlt : s.animationState.currentFrame + 1 < s.animationState.durationFrames) :
    (updateTransitionAnimation s).animationState =
      { s.animationState with currentFrame := s.animationState.currentFrame + 1 }
  ∧ (updateTransitionAnimation s).motionMode = s.motionMode := by
  rw [updateTransitionAnimation]
  rw [hact, hs, ht, hm]
  simp only [Bool.true_eq_false, if_false]
  rw [if_neg (by omega)]
  constructor <;> simp [hact, hs, ht, hm]

/-- Helper: the terminal blend tick snaps the skeleton to the target,
commits the target mode and clears the active flag. -/
theorem updateTransitionAnimation_snap (s : SimState) (startSk targetSk : Bone)
    (tMode : MotionMode)
    (hact : s.animationState.active = true)
    (hs : s.animationState.startSkeleton = some startSk)
    (ht : s.animationState.targetSkeleton = some targetSk)
    (hm : s.animationState.targetMode = some tMode)
    (hge : s.animationState.durationFrames ≤ s.animationState.currentFrame + 1) :
    (updateTransitionAnimation s).skeleton = targetSk
  ∧ (updateTransitionAnimation s).motionMode = tMode
  ∧ (updateTransitionAnimation s).animationState.active = false := by
  rw [updateTransitionAnimation]
  rw [hact, hs, ht, hm]
  simp only [Bool.true_eq_false, if_false]
  rw [if_pos (by omega)]
  exact ⟨rfl, rfl, rfl⟩

/-- Helper: completion of a running transition, generalized over the
number of remaining frames. -/
theorem tickN_completes_aux : ∀ (k : Nat), 0 < k →
    ∀ (s : SimState) (startSk targetSk : Bone) (tMode : MotionMode),
    s.animationState.active = true →
    s.animationState.startSkeleton = some startSk →
    s.animationState.targetSkeleton = some targetSk →
    s.animationState.targetMode = some tMode →
    s.animationState.currentFrame + k = s.animationState.durationFrames →
    (tickN k s).skeleton = targetSk ∧ (tickN k s).motionMode = tMode ∧
      (tickN k s).animationState.active = false := by
  intro k
  induction k with
  | zero => intro h; exact absurd h (lt_irrefl 0)
  | succ k ih =>
    intro _ s startSk targetSk tMode hact hs ht hm hsum
    by_cases hk : k = 0
    · subst hk
      have hfin := updateTransitionAnimation_snap s startSk targetSk tMode
        hact hs ht hm (by omega)
      simpa [tickN] using hfin
    · have hstep := updateTransitionAnimation_step s startSk targetSk tMode
        hact hs ht hm (by omega)
      have h1 := hstep.1
      show (tickN k (updateTransitionAnimation s)).skeleton = targetSk ∧ _ ∧ _
      exact ih (by omega) (updateTransitionAnimation s) startSk targetSk tMode
        (by rw [h1]; simpa using hact) (by rw [h1]; simpa using hs)
        (by rw [h1]; simpa using ht) (by rw [h1]; simpa using hm)
        (by rw [h1]; simp; omega)

/-- Claim C4: a transition started at frame 0 with a positive duration
reaches, after exactly durationFrames blend ticks, a state whose skeleton
is exactly the target skeleton (the terminal tick snaps, leaving no
interpolation residue), whose mode is the target mode, and whose
transition is inactive. -/
theorem updateTransitionAnimation_completes (s : SimState)
    (startSk targetSk : Bone) (tMode : MotionMode)
    (hact : s.animationState.active = true)
    (hs : s.animationState.startSkeleton = some startSk)
    (ht : s.animationState.targetSkeleton = some targetSk)
    (hm : s.animationState.targetMode = some tMode)
    (hcf : s.animationState.currentFrame = 0)
    (hdur : 0 < s.animationState.durationFrames) :
    (tickN s.animationState.durationFrames s).skeleton = targetSk
  ∧ (tickN s.animationState.durationFrames s).motionMode = tMode
  ∧ (tickN s.animationState.durationFrames s).animationState.active = false :=
  tickN_completes_aux s.animationState.durationFrames hdur s startSk targetSk tMode
    hact hs ht hm (by omega)

/-- A one-bone blend fixture: the start pose. -/
def blendFixtureStart : Bone := Bone.node "Navel" 0 0 10 (some true) none none []

/-- A one-bone blend fixture: the target pose, differing in the angle. -/
def blendFixtureTarget : Bone := Bone.node "Navel" 0 1 10 (some true) none none []

/-- A running transition of duration 2 at frame 0 from the start fixture
toward the target fixture. -/
def blendFixtureState : SimState :=
  { skeleton := blendFixtureStart, navelOffsetX := 0, navelOffsetY := 0,
    motionMode := .tension,
    animationState :=
      { active := true, startSkeleton := some blendFixtureStart,
        targetSkeleton := some blendFixtureTarget,
        startOffsets := ⟨0, 0⟩, targetOffsets := ⟨0, 0⟩,
        durationFrames := 2, currentFrame := 0, targetMode := some .tPose },
    lockedBones := [], lockedChainCache := [], activeControl := none,
    lastAdjustedGroup := none }

/-- Witness for C4: after exactly 2 ticks of the duration-2 fixture
transition the skeleton equals the target exactly, the mode is the
target mode and the transition is inactive. -/
theorem updateTransitionAnimation_completes_witness :
    (tickN 2 blendFixtureState).skeleton = blendFixtureTarget
  ∧ (tickN 2 blendFixtureState).motionMode = MotionMode.tPose
  ∧ (tickN 2 blendFixtureState).animationState.active = false :=
  updateTransitionAnimation_completes blendFixtureState blendFixtureStart
    blendFixtureTarget MotionMode.tPose rfl rfl rfl rfl rfl
    (by simp [blendFixtureState])

/-- Helper: one relaxation of a single stick between two free particles
moves both endpoints by half the correction, scaling the offset vector by
length / distance. -/
theorem relaxStick_two_free (p0 p1 : PhysicsPoint) (L : ℝ)
    (h0 : p0.isPinned = false) (h1 : p1.isPinned = false)
    (hd : endpointDist [p0, p1] ≠ 0) :
    ∃ q0 q1, relaxStick [p0, p1] ⟨0, 1, L⟩ = [q0, q1]
      ∧ q0.isPinned = false ∧ q1.isPinned = false
      ∧ q1.x - q0.x = (p1.x - p0.x) * (L / endpointDist [p0, p1])
      ∧ q1.y - q0.y = (p1.y - p0.y) * (L / endpointDist [p0, p1]) := by
  have hdd : endpointDist [p0, p1] =
      Real.sqrt ((p1.x - p0.x) * (p1.x - p0.x) + (p1.y - p0.y) * (p1.y - p0.y)) := rfl
  refine ⟨{ p0 with
      x := p0.x - (p1.x - p0.x) * ((L - endpointDist [p0, p1]) / endpointDist [p0, p1] / 2),
      y := p0.y - (p1.y - p0.y) * ((L - endpointDist [p0, p1]) / endpointDist [p0, p1] / 2) },
    { p1 with
      x := p1.x + (p1.x - p0.x) * ((L - endpointDist [p0, p1]) / endpointDist [p0, p1] / 2),
      y := p1.y + (p1.y - p0.y) * ((L - endpointDist [p0, p1]) / endpointDist [p0, p1] / 2) },
    ?_, by simp [h0], by simp [h1], ?_, ?_⟩
  · rw [relaxStick]
    simp only [List.get?, ← hdd]
    rw [if_neg hd, h0, h1]
    simp
  · have hne : endpointDist [p0, p1] ≠ 0 := hd
    field_simp
    ring
  · have hne : endpointDist [p0, p1] ≠ 0 := hd
    field_simp
    ring

/-- Helper: one relaxation of a single stick between two free particles
at nonzero distance makes the distance exactly the absolute rest
length. -/
theorem relaxStick_two_free_dist (p0 p1 : PhysicsPoint) (L : ℝ)
    (h0 : p0.isPinned = false) (h1 : p1.isPinned = false)
    (hd : endpointDist [p0, p1] ≠ 0) :
    endpointDist (relaxStick [p0, p1] ⟨0, 1, L⟩) = |L|
  ∧ ∃ q0 q1, relaxStick [p0, p1] ⟨0, 1, L⟩ = [q0, q1]
      ∧ q0.isPinned = false ∧ q1.isPinned = false := by
  obtain ⟨q0, q1, heq, hq0, hq1, hx, hy⟩ := relaxStick_two_free p0 p1 L h0 h1 hd
  have hd0 : 0 ≤ endpointDist [p0, p1] := Real.sqrt_nonneg _
  have hdpos : 0 < endpointDist [p0, p1] := lt_of_le_of_ne hd0 (Ne.symm hd)
  refine ⟨?_, q0, q1, heq, hq0, hq1⟩
  rw [heq]
  show Real.sqrt ((q1.x - q0.x) * (q1.x - q0.x) + (q1.y - q0.y) * (q1.y - q0.y)) = |L|
  rw [hx, hy]
  have hfac : (p1.x - p0.x) * (L / endpointDist [p0, p1]) *
        ((p1.x - p0.x) * (L / endpointDist [p0, p1])) +
      (p1.y - p0.y) * (L / endpointDist [p0, p1]) *
        ((p1.y - p0.y) * (L / endpointDist [p0, p1])) =
      (L / endpointDist [p0, p1]) ^ 2 *
        ((p1.x - p0.x) * (p1.x - p0.x) + (p1.y - p0.y) * (p1.y - p0.y)) := by
    ring
  rw [hfac, Real.sqrt_mul (sq_nonneg _), Real.sqrt_sq_eq_abs]
  have hsq : Real.sqrt ((p1.x - p0.x) * (p1.x - p0.x) + (p1.y - p0.y) * (p1.y - p0.y)) =
      endpointDist [p0, p1] := rfl
  rw [hsq, abs_div, abs_of_pos hdpos, div_mul_cancel₀ _ (ne_of_gt hdpos)]

/-- Helper: any positive number of single-stick relaxation passes brings
two free particles at nonzero distance to distance exactly the rest
length. -/
theorem relaxIterations_two_free_dist : ∀ (n : Nat), 0 < n →
    ∀ (p0 p1 : PhysicsPoint) (L : ℝ), 0 < L →
    p0.isPinned = false → p1.isPinned = false → endpointDist [p0, p1] ≠ 0 →
    endpointDist (relaxIterations n [⟨0, 1, L⟩] [p0, p1]) = L := by
  intro n
  induction n with
  | zero => intro h; exact absurd h (lt_irrefl 0)
  | succ n ih =>
    intro _ p0 p1 L hL h0 h1 hd
    have hpass : relaxPass [(⟨0, 1, L⟩ : PhysicsStick)] [p0, p1] =
        relaxStick [p0, p1] ⟨0, 1, L⟩ := by
      simp [relaxPass]
    obtain ⟨hdist, q0, q1, heq, hq0, hq1⟩ := relaxStick_two_free_dist p0 p1 L h0 h1 hd
    rw [heq] at hdist
    by_cases hn : n = 0
    · subst hn
      show endpointDist (relaxIterations 0 [(⟨0, 1, L⟩ : PhysicsStick)]
        (relaxPass [(⟨0, 1, L⟩ : PhysicsStick)] [p0, p1])) = L
      rw [relaxIterations, hpass, heq, hdist, abs_of_pos hL]
    · show endpointDist (relaxIterations n [(⟨0, 1, L⟩ : PhysicsStick)]
        (relaxPass [(⟨0, 1, L⟩ : PhysicsStick)] [p0, p1])) = L
      rw [hpass, heq]
      exact ih (Nat.pos_of_ne_zero hn) q0 q1 L hL hq0 hq1
        (by rw [hdist]; exact ne_of_gt (abs_pos.mpr (ne_of_gt hL)))

/-- Claim C8: a single stick of rest length L gt 0 between two free
particles that start at distance 2L ends, after the 5 relaxation
iterations of one settle pass, at a distance strictly closer to L than
the initial distance (in fact exactly L, already after the first
iteration). -/
theorem relaxation_converges_single_stick (L : ℝ) (p0 p1 : PhysicsPoint)
    (hL : 0 < L) (h0 : p0.isPinned = false) (h1 : p1.isPinned = false)
    (hd : endpointDist [p0, p1] = 2 * L) :
    |endpointDist (relaxIterations 5 [⟨0, 1, L⟩] [p0, p1]) - L| <
      |endpointDist [p0, p1] - L| := by
  have hfin : endpointDist (relaxIterations 5 [⟨0, 1, L⟩] [p0, p1]) = L :=
    relaxIterations_two_free_dist 5 (by norm_num) p0 p1 L hL h0 h1
      (by rw [hd]; positivity)
  rw [hfin, sub_self, abs_zero, hd]
  have h2 : 2 * L - L = L := by ring
  rw [h2, abs_of_pos hL]
  exact hL

/-- Witness for C8: a unit stick stretched to distance 2 between the
particles (0,0) and (2,0). -/
theorem relaxation_converges_single_stick_witness :
    |endpointDist (relaxIterations 5 [⟨0, 1, 1⟩]
        [⟨0, 0, 0, 0, false⟩, ⟨2, 0, 2, 0, false⟩]) - 1| <
      |endpointDist [⟨0, 0, 0, 0, false⟩, ⟨2, 0, 2, 0, false⟩] - 1| :=
  relaxation_converges_single_stick 1 ⟨0, 0, 0, 0, false⟩ ⟨2, 0, 2, 0, false⟩
    (by norm_num) rfl rfl
    (by
      show Real.sqrt (((2:ℝ) - 0) * ((2:ℝ) - 0) + ((0:ℝ) - 0) * ((0:ℝ) - 0)) = 2 * 1
      have h : ((2:ℝ) - 0) * ((2:ℝ) - 0) + ((0:ℝ) - 0) * ((0:ℝ) - 0) = (2:ℝ) ^ 2 := by
        norm_num
      rw [h, Real.sqrt_sq (by norm_num : (0:ℝ) ≤ 2)]
      norm_num)

/-- A left-leg chain fixture for the locked-chain guard claims. -/
def lockedChainFixtureSkeleton : Bone :=
  Bone.node "Navel" 0 0 10 (some true) none none
    [Bone.node "L_Hip" 87.5 0 10 (some true) none none
      [Bone.node "L_Calf" 87.5 0 8 (some true) none none
        [Bone.node "L_Foot" 50 0 3 (some true) none none []]]]

/-- A state with L_Foot locked (so L_Hip and L_Calf sit in the rebuilt
locked-chain cache) and a transition active. -/
def lockedChainFixtureState : SimState :=
  { skeleton := lockedChainFixtureSkeleton, navelOffsetX := 0, navelOffsetY := 0,
    motionMode := MotionMode.tension,
    animationState :=
      { active := true, startSkeleton := some lockedChainFixtureSkeleton,
        targetSkeleton := some lockedChainFixtureSkeleton,
        startOffsets := ⟨0, 0⟩, targetOffsets := ⟨0, 0⟩,
        durationFrames := 30, currentFrame := 0,
        targetMode := some MotionMode.tension },
    lockedBones := [("L_Foot", ⟨0, 0⟩)],
    lockedChainCache :=
      buildLockedChainCache lockedChainFixtureSkeleton [("L_Foot", ⟨0, 0⟩)],
    activeControl := none, lastAdjustedGroup := none }

/-- Counterexample for C5: setBoneAngle carries no locked-chain or mode
guard. In a state where L_Hip is in the locked-chain cache (and is not
the locked effector itself) and a transition is active, the call still
changes the angle of L_Hip from 0 to 1/2. -/
theorem setBoneAngle_locked_counterexample :
    lockedChainFixtureState.lockedChainCache.contains "L_Hip" = true
  ∧ mapHas lockedChainFixtureState.lockedBones "L_Hip" = false
  ∧ lockedChainFixtureState.animationState.active = true
  ∧ boneAngleIn lockedChainFixtureState.skeleton "L_Hip" = 0
  ∧ boneAngleIn (setBoneAngle lockedChainFixtureState "L_Hip" (1 / 2) true).skeleton
      "L_Hip" = 1 / 2
  ∧ ((1 : ℝ) / 2) ≠ 0 := by
  refine ⟨?_, ?_, rfl, ?_, ?_, by norm_num⟩
  · simp [lockedChainFixtureState, lockedChainFixtureSkeleton, buildLockedChainCache,
      chainPathAux, boneCount, boneCountList, findBone, findBoneList,
      findParentBone, findParentInChildren, Bone.name]
  · simp [lockedChainFixtureState, mapHas]
  · simp [lockedChainFixtureState, lockedChainFixtureSkeleton, boneAngleIn,
      findBone, findBoneList, Bone.angle]
  · simp [setBoneAngle, lockedChainFixtureState, lockedChainFixtureSkeleton,
      boneMetadata, controllableBoneNames, controlGroups, mapHas,
      findBone, findBoneList, setAngleFirst, modifyAngleFirst, modifyAngleFirstList,
      containsBone, containsBoneList, boneAngleIn, Bone.angle, Bone.name]
    rw [inf_eq_right.mpr (by nlinarith [Real.pi_gt_three] : (2:ℝ)⁻¹ ≤ Real.pi),
      sup_eq_right.mpr (by nlinarith [Real.pi_gt_three] : -Real.pi ≤ (2:ℝ)⁻¹)]

/-- Claim C5 amended: the rejection guard lives in the keyboard edit path
handleKeyDown, not in setBoneAngle. An arrow-key edit is a no-op whenever
the mode is Collapse, a transition is active, no control is active, or
the active control is in the locked-chain cache with the locked effector
itself excluded from the check. -/
theorem handleKeyDown_guard (s : SimState) (key : Key)
    (hk : key = Key.arrowUp ∨ key = Key.arrowDown)
    (hguard : s.motionMode = MotionMode.collapse ∨ s.animationState.active = true ∨
      s.activeControl = none ∨
      ∃ c, s.activeControl = some c ∧ isBoneInLockedChain s c false = true) :
    handleKeyDown s key = s := by
  have hnb : ¬ key = Key.backquote := by
    rcases hk with hk | hk <;> subst hk <;> simp
  rw [handleKeyDown, if_neg hnb]
  by_cases hg1 : s.motionMode = MotionMode.collapse ∨ s.animationState.active = true
  · rw [if_pos hg1]
  · rw [if_neg hg1]
    rcases hguard with h | h | h | ⟨c, hc, hlk⟩
    · exact absurd (Or.inl h) hg1
    · exact absurd (Or.inr h) hg1
    · rw [h]
    · rw [hc]
      simp only []
      rw [if_pos hlk]

/-- Witness for the amended C5: with the mode set to Collapse an ArrowUp
press leaves the state untouched. -/
theorem handleKeyDown_guard_witness :
    handleKeyDown { lockedChainFixtureState with motionMode := MotionMode.collapse }
      Key.arrowUp = { lockedChainFixtureState with motionMode := MotionMode.collapse } :=
  handleKeyDown_guard { lockedChainFixtureState with motionMode := MotionMode.collapse }
    Key.arrowUp (Or.inl rfl) (Or.inl rfl)

/-- Claim C6: toggleLock is a no-op for names outside the lockable
whitelist; it removes an existing lock; and otherwise it adds a lock
whose pin target is the freshly resolved world end point of the immediate
parent of the effector. -/
theorem toggleLock_spec (s : SimState) (rectW rectH : ℝ) (boneName : String) :
    (lockableBones.contains boneName = false → toggleLock s rectW rectH boneName = s)
  ∧ (lockableBones.contains boneName = true → mapHas s.lockedBones boneName = true →
      (toggleLock s rectW rectH boneName).lockedBones =
        mapDelete s.lockedBones boneName)
  ∧ (lockableBones.contains boneName = true → mapHas s.lockedBones boneName = false →
      ∀ parentBone pgp,
        findParentBone (computeGlobalPositions s.skeleton (rectW / 2 + s.navelOffsetX)
            (rectH * 0.85 - getLegLength - s.navelOffsetY) 0) boneName =
          some parentBone →
        parentBone.globalPos = some pgp →
        (toggleLock s rectW rectH boneName).lockedBones =
          mapSet s.lockedBones boneName pgp.stop) := by
  refine ⟨?_, ?_, ?_⟩
  · intro h
    rw [toggleLock, if_pos (by simpa using h)]
  · intro h1 h2
    rw [toggleLock, if_neg (by simpa using h1), if_pos (by simp [h2])]
  · intro h1 h2 parentBone pgp hpar hpgp
    rw [toggleLock, if_neg (by simpa using h1), if_neg (by simp [h2])]
    dsimp only
    rw [hpar]
    dsimp only
    rw [hpgp]

/-- A two-bone fixture state with nothing locked, for capturing a new
lock. -/
def toggleLockFixtureState : SimState :=
  { skeleton := Bone.node "Navel" 0 0 10 (some true) none none
      [Bone.node "L_Calf" 10 0 8 (some true) none none
        [Bone.node "L_Foot" 50 0 3 (some true) none none []]],
    navelOffsetX := 0, navelOffsetY := 0, motionMode := MotionMode.tension,
    animationState :=
      { active := false, startSkeleton := none, targetSkeleton := none,
        startOffsets := ⟨0, 0⟩, targetOffsets := ⟨0, 0⟩,
        durationFrames := 0, currentFrame := 0, targetMode := none },
    lockedBones := [], lockedChainCache := [], activeControl := none,
    lastAdjustedGroup := none }

/-- Witness for C6: locking L_Foot in a 100 x 100 viewport captures the
resolved end point (60, -140) of its parent L_Calf (navel anchored at
x = 50, y = 85 - 225), not the tip of L_Foot itself. -/
theorem toggleLock_spec_witness :
    (toggleLock toggleLockFixtureState 100 100 "L_Foot").lockedBones =
      [("L_Foot", Vec2.mk 60 (-140))] := by
  have hleg : getLegLength = 225 := by
    simp [getLegLength, boneLengthIn, SKELETON_TREE, rawBone, findBone, findBoneList,
      Bone.length]
    norm_num [ANATOMICAL_SCALE]
  have happ := (toggleLock_spec toggleLockFixtureState 100 100 "L_Foot").2.2
    (by simp [lockableBones]) (by simp [toggleLockFixtureState, mapHas])
    (Bone.node "L_Calf" 10 0 8 (some true) (some 0)
      (some ⟨⟨50, -140⟩, ⟨60, -140⟩⟩)
      [Bone.node "L_Foot" 50 0 3 (some true) (some 0)
        (some ⟨⟨60, -140⟩, ⟨110, -140⟩⟩) []])
    ⟨⟨50, -140⟩, ⟨60, -140⟩⟩
    (by
      simp [toggleLockFixtureState, hleg, computeGlobalPositions,
        computeGlobalPositionsList, findParentBone, findParentInChildren,
        findBone, findBoneList, Bone.name]
      norm_num)
    rfl
  rw [happ]
  simp [toggleLockFixtureState, mapSet, mapHas, Pose.stop]

/-- Helper: looking up a Foot-suffixed key in the clamped copy of the
lock map returns the stored position with its Y replaced by the floor
height. -/
theorem mapGet_clamped (m : List (String × Vec2)) (name : String) (p : Vec2)
    (floorY : ℝ) (h : mapGet m name = some p)
    (hf : stringEndsWith name "Foot" = true) :
    mapGet (m.map (fun e =>
        if stringEndsWith e.1 "Foot" then (e.1, Vec2.mk e.2.x floorY) else e)) name =
      some (Vec2.mk p.x floorY) := by
  induction m with
  | nil => simp [mapGet] at h
  | cons e es ih =>
    rw [mapGet] at h
    by_cases he : e.1 = name
    · rw [if_pos he] at h
      injection h with hp
      subst hp
      rw [List.map_cons]
      by_cases hef : stringEndsWith e.1 "Foot" = true
      · rw [if_pos hef, mapGet, if_pos he]
      · exact absurd (he ▸ hf) hef
    · rw [if_neg he] at h
      rw [List.map_cons, mapGet]
      by_cases hef : stringEndsWith e.1 "Foot" = true
      · rw [if_pos hef]
        rw [if_neg he]
        exact ih h
      · rw [if_neg hef, if_neg he]
        exact ih h

/-- Claim C10: the interactive render path builds its IK target map as a
shallow copy of lockedBones sharing the position objects, so the
per-frame foot clamp writes through: after one interactive render every
locked entry whose name ends in Foot has the floor height recorded as
the Y of its pin target in the persistent lockedBones state. -/
theorem drawInteractiveModel_clamps_lock (s : SimState) (rectW rectH : ℝ)
    (name : String) (p : Vec2)
    (hget : mapGet s.lockedBones name = some p)
    (hfoot : stringEndsWith name "Foot" = true) :
    mapGet (drawInteractiveModel s rectW rectH).1.lockedBones name =
      some (Vec2.mk p.x (rectH * 0.85)) := by
  have hproj : (drawInteractiveModel s rectW rectH).1.lockedBones =
      s.lockedBones.map (fun e =>
        if stringEndsWith e.1 "Foot" then (e.1, Vec2.mk e.2.x (rectH * 0.85)) else e) := by
    rw [drawInteractiveModel]
  rw [hproj]
  exact mapGet_clamped s.lockedBones name p (rectH * 0.85) hget hfoot

/-- A state with L_Foot locked at Y = 55, for the foot clamp witness. -/
def footLockFixtureState : SimState :=
  { skeleton := Bone.node "Navel" 0 0 10 (some true) none none [],
    navelOffsetX := 0, navelOffsetY := 0, motionMode := MotionMode.tension,
    animationState :=
      { active := false, startSkeleton := none, targetSkeleton := none,
        startOffsets := ⟨0, 0⟩, targetOffsets := ⟨0, 0⟩,
        durationFrames := 0, currentFrame := 0, targetMode := none },
    lockedBones := [("L_Foot", ⟨10, 55⟩)], lockedChainCache := [],
    activeControl := none, lastAdjustedGroup := none }

/-- Witness for C10: an L_Foot lock captured at Y = 55 has Y = 85
recorded in lockedBones after one interactive render in a 100 x 100
viewport. -/
theorem drawInteractiveModel_clamps_lock_witness :
    mapGet (drawInteractiveModel footLockFixtureState 100 100).1.lockedBones
      "L_Foot" = some (Vec2.mk 10 85) := by
  have h := drawInteractiveModel_clamps_lock footLockFixtureState 100 100
    "L_Foot" ⟨10, 55⟩ (by simp [footLockFixtureState, mapGet]) (by decide)
  rw [h]
  norm_num

end IKRig
